import Mathlib

/-!
Verification of the RPIO command-line front end (`rpio-cmd.py`).

The script is a thin argument processor over an external GPIO collaborator.
We shallowly embed each command branch of its `__main__` block as a pure
Lean function from the raw option string (a `List Char`, mirroring the
Python 2 `str`) and an environment describing the collaborator's replies,
to a record of the collaborator calls made, the output produced and the
way the invocation ended (normally or with an uncaught Python exception).
-/

/-- Python's `s.split(sep)` for a single-character separator, on the
character list of the string.  `"".split(c) = [""]`, and separators at the
ends produce empty pieces, exactly as in Python. -/
def pySplit (sep : Char) : List Char → List (List Char)
  | [] => [[]]
  | x :: xs =>
    if x = sep then [] :: pySplit sep xs
    else
      match pySplit sep xs with
      | [] => [[x]]
      | y :: ys => (x :: y) :: ys

/-- The value of a decimal digit character, `none` on a non-digit. -/
def digitVal? (c : Char) : Option Nat :=
  if ('0' ≤ c ∧ c ≤ '9') then some (c.toNat - 48) else none

/-- Accumulating decimal reader: succeeds only when every character is a
decimal digit. -/
def parseDigitsAux (acc : Nat) : List Char → Option Nat
  | [] => some acc
  | c :: cs =>
    match digitVal? c with
    | some d => parseDigitsAux (10 * acc + d) cs
    | none => none

/-- Reads a nonempty all-digit character list as a natural number. -/
def parseDigits? (s : List Char) : Option Nat :=
  if s = [] then none else parseDigitsAux 0 s

/-- Python's `int(s)` on a decimal literal with an optional single sign,
`none` when `int` would raise `ValueError`.  (Surrounding whitespace,
which `int` would strip, is not modelled; no claim involves it.) -/
def pyInt? : List Char → Option Int
  | [] => none
  | c :: cs =>
    if c = '-' then (parseDigits? cs).map (fun m => -(m : Int))
    else if c = '+' then (parseDigits? cs).map (fun m => (m : Int))
    else (parseDigits? (c :: cs)).map (fun m => (m : Int))

/-- Python 2 string `<`: lexicographic comparison by character code, a
proper prefix being smaller.  This is the comparison `__main__` applies to
`RPIO.VERSION < RPIO_VERSION_MIN` (both plain strings). -/
def pyStrLt : List Char → List Char → Bool
  | _, [] => false
  | [], _ :: _ => true
  | a :: as, b :: bs =>
    if a < b then true else if a = b then pyStrLt as bs else false

/-- Decimal digits of a number, most significant first, accumulator
style; the fuel argument (any bound on the digit count) keeps the
recursion structural. -/
def natCharsCore : Nat → Nat → List Char → List Char
  | 0, _, acc => acc
  | fuel + 1, n, acc =>
    if n = 0 then acc
    else natCharsCore fuel (n / 10) (Char.ofNat (48 + n % 10) :: acc)

/-- Python's `str(n)` for a natural number. -/
def natChars (n : Nat) : List Char :=
  if n = 0 then ['0'] else natCharsCore (n + 1) n []

/-- Python's `str(n)` for an integer. -/
def intChars (n : Int) : List Char :=
  if n < 0 then '-' :: natChars n.natAbs else natChars n.toNat

/-- `[n for n in xrange(a, b + 1)]`: the inclusive integer range used by
the `--show` and `--interrupt` branches to expand `N1-N2` specs. -/
def pyRange (a b : Int) : List Int :=
  (List.range (b + 1 - a).toNat).map (fun i => a + Int.ofNat i)

/-- `RPIO_VERSION_MIN = "0.1.8"`. -/
def rpioVersionMin : List Char := ("0.1.8").toList

/-- `GPIO_FUNCTIONS = {0: "OUTPUT", 1: "INPUT", 4: "ALT0", 7: "-"}`,
as a partial map: `none` is a `KeyError` on lookup. -/
def GPIO_FUNCTIONS (f : Int) : Option (List Char) :=
  if f = 0 then some (("OUTPUT").toList)
  else if f = 1 then some (("INPUT").toList)
  else if f = 4 then some (("ALT0").toList)
  else if f = 7 then some (("-").toList)
  else none

/-- Pin mode constants of the collaborator (`RPIO.IN`, `RPIO.OUT`). -/
inductive PyMode
  | IN
  | OUT
deriving DecidableEq

/-- Pull-resistor constants of the collaborator (`RPIO.PUD_UP`,
`RPIO.PUD_DOWN`). -/
inductive Pud
  | up
  | down
deriving DecidableEq

/-- One call made against the GPIO collaborator.  `setup` records the
`pull_up_down` keyword as `none` when the script passes no such argument. -/
inductive Call
  | gpio_function (pin : Int)
  | forceinput (pin : Int)
  | forceoutput (pin : Int) (value : Int)
  | setup (pin : Int) (mode : PyMode) (pud : Option Pud)
  | add_interrupt_callback (pin : Int) (edge : List Char)
  | wait_for_interrupts
  | cleanup
deriving DecidableEq

/-- How the collaborator's blocking `wait_for_interrupts()` call ends:
normally, or interrupted by Ctrl-C (`KeyboardInterrupt`). -/
inductive WaitOutcome
  | normal
  | keyboardInterrupt
deriving DecidableEq

/-- The collaborator's replies: the function code each pin reports, the
forced-input value of each pin, and how the blocking wait ends. -/
structure Env where
  gpio_function : Int → Int
  forceinput : Int → Bool
  waitOutcome : WaitOutcome

/-- How an invocation of a command branch ends: normal termination, or an
uncaught Python exception of the given kind.  `raisedValueError` keeps the
message of an explicit `raise ValueError(...)`. -/
inductive PyResult
  | ok
  | valueError
  | raisedValueError (msg : List Char)
  | keyError
  | attrError
deriving DecidableEq

/-- Everything observable about one command invocation: the collaborator
calls in order, the `--show` lines printed (pin, function name, bit), the
messages logged through `error(...)`, the interrupt registrations made,
the process exit status, and how the branch ended. -/
structure CmdOut where
  trace : List Call
  lines : List (Int × List Char × Bool)
  errors : List (List Char)
  regs : List (Int × List Char)
  exitCode : Nat
  result : PyResult
deriving DecidableEq

/-- Shared pin-id spec expansion of the `--show` and `--interrupt`
branches: a spec containing `-` is split into exactly two pieces and
expanded through `xrange` into a list of `Int`s, otherwise it is split on
commas into a list of strings.  A failing `int()` or a `split("-")` not
yielding exactly two pieces raises `ValueError`. -/
def resolveItems (spec : List Char) : Except PyResult (List (Int ⊕ List Char)) :=
  if '-' ∈ spec then
    match pySplit '-' spec with
    | [a, b] =>
      match pyInt? a, pyInt? b with
      | some n1, some n2 => .ok ((pyRange n1 n2).map Sum.inl)
      | _, _ => .error .valueError
    | _ => .error .valueError
  else
    .ok ((pySplit ',' spec).map Sum.inr)

/-- The `int(gpio_id_str)` conversion of the `--show` loop: an item from a
range expansion is already an `Int` (and `int` of an `int` is itself), a
comma-split item is parsed. -/
def itemId : Int ⊕ List Char → Option Int
  | .inl n => some n
  | .inr s => pyInt? s

/-- The pin-id sequence the `--show` branch resolves a spec to: range or
comma expansion followed by the per-item `int()` conversion of its loop. -/
def idsOf : List (Int ⊕ List Char) → Option (List Int)
  | [] => some []
  | item :: rest =>
    match itemId item with
    | none => none
    | some n => (idsOf rest).map (fun l => n :: l)

/-- The resolved pin ids of a `--show` spec, `none` when the branch raises
`ValueError` instead. -/
def resolvedIds (spec : List Char) : Option (List Int) :=
  match resolveItems spec with
  | .error _ => none
  | .ok items => idsOf items

/-- The body of the `--show` loop over the expanded items: `int()` the
item, call `gpio_function`, render the line.  `GPIO_FUNCTIONS[f]` is
evaluated before `RPIO.forceinput(gpio_id)` in the format tuple, so an
unknown function code raises `KeyError` after the `gpio_function` call and
before any `forceinput` call. -/
def showLoop (env : Env) : List (Int ⊕ List Char) → List Call × List (Int × List Char × Bool) × PyResult
  | [] => ([], [], .ok)
  | item :: rest =>
    match itemId item with
    | none => ([], [], .valueError)
    | some pin =>
      match GPIO_FUNCTIONS (env.gpio_function pin) with
      | none => ([.gpio_function pin], [], .keyError)
      | some fname =>
        let r := showLoop env rest
        (.gpio_function pin :: .forceinput pin :: r.1,
          (pin, fname, env.forceinput pin) :: r.2.1, r.2.2)

/-- The `--show` branch (`options.show`). -/
def showCmd (spec : List Char) (env : Env) : CmdOut :=
  match resolveItems spec with
  | .error e => ⟨[], [], [], [], 1, e⟩
  | .ok items =>
    let r := showLoop env items
    ⟨r.1, r.2.1, [], [], if r.2.2 = .ok then 0 else 1, r.2.2⟩

/-- The mode-mismatch message of the `--write` branch:
`"Cannot output to GPIO %s, because it is setup as %s. Use --setoutput %s
first." % (gpio_id_str, GPIO_FUNCTIONS[f], gpio_id)`. -/
def mismatchMsg (ds fname : List Char) (pin : Int) : List Char :=
  ("Cannot output to GPIO ").toList ++ ds ++ (", because it is setup as ").toList
    ++ fname ++ (". Use ").toList ++ (("--setoutput ").toList ++ intChars pin)
    ++ (" first.").toList

/-- The `--write` branch (`options.write`): split the spec on `:` into
exactly two pieces, `int()` the pin, query `gpio_function`; on code `0`
call `forceoutput(gpio_id, int(value_str))`, otherwise log the mismatch
message (rendering `GPIO_FUNCTIONS[f]`, a `KeyError` on unknown codes). -/
def writeCmd (spec : List Char) (env : Env) : CmdOut :=
  match pySplit ':' spec with
  | [ds, vs] =>
    match pyInt? ds with
    | none => ⟨[], [], [], [], 1, .valueError⟩
    | some pin =>
      if env.gpio_function pin = 0 then
        match pyInt? vs with
        | none => ⟨[.gpio_function pin], [], [], [], 1, .valueError⟩
        | some v => ⟨[.gpio_function pin, .forceoutput pin v], [], [], [], 0, .ok⟩
      else
        match GPIO_FUNCTIONS (env.gpio_function pin) with
        | none => ⟨[.gpio_function pin], [], [], [], 1, .keyError⟩
        | some fname =>
          ⟨[.gpio_function pin], [], [mismatchMsg ds fname pin], [], 0, .ok⟩
  | _ => ⟨[], [], [], [], 1, .valueError⟩

/-- The registration loop of the `--interrupt` branch.  A range-expanded
item is an `int`, and `gpio_id_str.split(":")` on an `int` raises
`AttributeError`; otherwise the item is split on `:`, the pin parsed with
`int()`, and the edge defaults to `"both"` when no suffix is present and
is the literal second piece otherwise. -/
def interruptLoop : List (Int ⊕ List Char) → List Call × List (Int × List Char) × PyResult
  | [] => ([], [], .ok)
  | .inl _ :: _ => ([], [], .attrError)
  | .inr s :: rest =>
    match pySplit ':' s with
    | [] => ([], [], .valueError)
    | p0 :: ps =>
      match pyInt? p0 with
      | none => ([], [], .valueError)
      | some pin =>
        let edge := match ps with
          | [] => ("both").toList
          | e :: _ => e
        let r := interruptLoop rest
        (.add_interrupt_callback pin edge :: r.1, (pin, edge) :: r.2.1, r.2.2)

/-- The `--interrupt` branch (`options.interrupt`): expand the spec,
register the callbacks, then block in `wait_for_interrupts()` inside a
`try`; a `KeyboardInterrupt` runs `RPIO.cleanup()` and the script falls
off the end, exiting 0. -/
def interruptCmd (spec : List Char) (env : Env) : CmdOut :=
  match resolveItems spec with
  | .error e => ⟨[], [], [], [], 1, e⟩
  | .ok items =>
    let r := interruptLoop items
    match r.2.2 with
    | .ok =>
      match env.waitOutcome with
      | .normal => ⟨r.1 ++ [.wait_for_interrupts], [], [], r.2.1, 0, .ok⟩
      | .keyboardInterrupt =>
        ⟨r.1 ++ [.wait_for_interrupts, .cleanup], [], [], r.2.1, 0, .ok⟩
    | .valueError => ⟨r.1, [], [], r.2.1, 1, .valueError⟩
    | .raisedValueError m => ⟨r.1, [], [], r.2.1, 1, .raisedValueError m⟩
    | .keyError => ⟨r.1, [], [], r.2.1, 1, .keyError⟩
    | .attrError => ⟨r.1, [], [], r.2.1, 1, .attrError⟩

/-- The bad-suffix message of the `--setinput` branch:
`"Error: %s is not \x60pullup\x60 or \x60pulldown\x60" % gpio_id` — note
the source formats `gpio_id`, the pin, into the message. -/
def badSuffixMsg (pin : Int) : List Char :=
  ("Error: ").toList ++ intChars pin ++ (" is not `pullup` or `pulldown`").toList

/-- The `--setinput` branch (`options.setinput`): split on `:`, `int()`
the first piece; with no suffix call `setup(gpio_id, RPIO.IN)`, with
suffix `pullup`/`pulldown` pass the matching `pull_up_down`, and on any
other suffix raise `ValueError` with `badSuffixMsg` and make no call. -/
def setinputCmd (spec : List Char) : CmdOut :=
  match pySplit ':' spec with
  | [] => ⟨[], [], [], [], 1, .valueError⟩
  | p0 :: ps =>
    match pyInt? p0 with
    | none => ⟨[], [], [], [], 1, .valueError⟩
    | some pin =>
      match ps with
      | [] => ⟨[.setup pin .IN none], [], [], [], 0, .ok⟩
      | sfx :: _ =>
        if sfx = ("pullup").toList then
          ⟨[.setup pin .IN (some .up)], [], [], [], 0, .ok⟩
        else if sfx = ("pulldown").toList then
          ⟨[.setup pin .IN (some .down)], [], [], [], 0, .ok⟩
        else
          ⟨[], [], [], [], 1, .raisedValueError (badSuffixMsg pin)⟩

/-- The startup version gate: `if RPIO.VERSION < RPIO_VERSION_MIN:`, a
plain Python string comparison. -/
def startupAborts (version : List Char) : Bool :=
  pyStrLt version rpioVersionMin

/-- Modelled from the spec: the spec reads the collaborator's version as a
"semver-like" comparable value (§6), i.e. a dot-separated list of numeric
components; this parses that reading. -/
def parseSemver (s : List Char) : Option (List Int) :=
  (pySplit '.' s).mapM pyInt?

/-- Modelled from the spec: the "semver-like ordering" on version
components — componentwise lexicographic comparison of the numbers. -/
def semverLtSpec : List Int → List Int → Bool
  | _, [] => false
  | [], _ :: _ => true
  | a :: as, b :: bs =>
    if a < b then true else if a = b then semverLtSpec as bs else false

/-- A call is a pure query (`gpio_function` or `forceinput`): it can not
change any pin's configured mode. -/
def isQueryCall : Call → Bool
  | .gpio_function _ => true
  | .forceinput _ => true
  | _ => false

/-- A call is an `add_interrupt_callback` registration. -/
def isRegCall : Call → Bool
  | .add_interrupt_callback _ _ => true
  | _ => false

/-- The `forceoutput` calls of a trace, as (pin, value) pairs. -/
def forceoutputsOf : List Call → List (Int × Int)
  | [] => []
  | .forceoutput p v :: rest => (p, v) :: forceoutputsOf rest
  | _ :: rest => forceoutputsOf rest

/-- Joins pieces with commas: the inverse image of a comma-list spec. -/
def joinComma : List (List Char) → List Char
  | [] => []
  | [p] => p
  | p :: ps => p ++ ',' :: joinComma ps

/-- `k` consecutive integers counting up from `a`. -/
def upFrom (a : Int) : Nat → List Int
  | 0 => []
  | k + 1 => a :: upFrom (a + 1) k

/-- Modelled from the spec: the mathematically expected ordered sequence
of an inclusive range `N1-N2` — the consecutive integers from `n1` up to
`n2` (spec §8: for example `4-6` resolves to `[4,5,6]`). -/
def intRangeSpec (a b : Int) : List Int :=
  upFrom a (b + 1 - a).toNat

/-- A collaborator that reports every pin as OUTPUT (function code 0). -/
def envOut : Env :=
  { gpio_function := fun _ => 0, forceinput := fun _ => false,
    waitOutcome := .normal }

/-- A collaborator that reports every pin as INPUT (function code 1). -/
def envIn : Env :=
  { gpio_function := fun _ => 1, forceinput := fun _ => false,
    waitOutcome := .normal }

/-- A collaborator that reports function code 2 (ALT5 on the hardware),
which is outside `GPIO_FUNCTIONS`. -/
def envAlt : Env :=
  { gpio_function := fun _ => 2, forceinput := fun _ => false,
    waitOutcome := .normal }

/-- A collaborator whose blocking wait is interrupted by Ctrl-C. -/
def envKI : Env :=
  { gpio_function := fun _ => 1, forceinput := fun _ => false,
    waitOutcome := .keyboardInterrupt }

/-! ### Helper lemmas about the Python string primitives -/

theorem pySplit_of_not_mem (c : Char) (s : List Char) (h : c ∉ s) :
    pySplit c s = [s] := by
  induction s with
  | nil => rfl
  | cons x xs ih =>
    simp only [List.mem_cons, not_or] at h
    have hx : ¬ x = c := fun h' => h.1 h'.symm
    rw [pySplit, if_neg hx, ih h.2]

theorem pySplit_append (c : Char) (a b : List Char) (h : c ∉ a) :
    pySplit c (a ++ c :: b) = a :: pySplit c b := by
  induction a with
  | nil => simp [pySplit]
  | cons x xs ih =>
    simp only [List.mem_cons, not_or] at h
    have hx : ¬ x = c := fun h' => h.1 h'.symm
    rw [List.cons_append, pySplit, if_neg hx, ih h.2]

theorem parseDigitsAux_digits (cs : List Char) :
    ∀ (acc m : Nat), parseDigitsAux acc cs = some m →
      ∀ c ∈ cs, '0' ≤ c ∧ c ≤ '9' := by
  induction cs with
  | nil => intro _ _ _ c hc; cases hc
  | cons x xs ih =>
    intro acc m h c hc
    cases hdv : digitVal? x with
    | none => simp [parseDigitsAux, hdv] at h
    | some d =>
      simp only [parseDigitsAux, hdv] at h
      rcases List.mem_cons.mp hc with rfl | hmem
      · by_cases hcond : '0' ≤ c ∧ c ≤ '9'
        · exact hcond
        · rw [digitVal?, if_neg hcond] at hdv; cases hdv
      · exact ih _ _ h c hmem

theorem parseDigits?_digits (s : List Char) (m : Nat)
    (h : parseDigits? s = some m) : ∀ c ∈ s, '0' ≤ c ∧ c ≤ '9' := by
  by_cases he : s = []
  · subst he; intro c hc; cases hc
  · rw [parseDigits?, if_neg he] at h
    exact parseDigitsAux_digits s 0 m h

theorem pyInt?_digit_or_sign (s : List Char) (n : Int) (h : pyInt? s = some n) :
    ∀ c ∈ s, ('0' ≤ c ∧ c ≤ '9') ∨ c = '-' ∨ c = '+' := by
  cases s with
  | nil => intro c hc; cases hc
  | cons x xs =>
    intro c hc
    rw [pyInt?] at h
    by_cases h1 : x = '-'
    · rw [if_pos h1] at h
      cases hp : parseDigits? xs with
      | none => rw [hp] at h; simp at h
      | some m =>
        rcases List.mem_cons.mp hc with rfl | hmem
        · exact Or.inr (Or.inl h1)
        · exact Or.inl (parseDigits?_digits xs m hp c hmem)
    · rw [if_neg h1] at h
      by_cases h2 : x = '+'
      · rw [if_pos h2] at h
        cases hp : parseDigits? xs with
        | none => rw [hp] at h; simp at h
        | some m =>
          rcases List.mem_cons.mp hc with rfl | hmem
          · exact Or.inr (Or.inr h2)
          · exact Or.inl (parseDigits?_digits xs m hp c hmem)
      · rw [if_neg h2] at h
        cases hp : parseDigits? (x :: xs) with
        | none => rw [hp] at h; simp at h
        | some m => exact Or.inl (parseDigits?_digits (x :: xs) m hp c hc)

theorem pyInt?_not_mem (s : List Char) (n : Int) (c : Char)
    (h : pyInt? s = some n) (hd : ¬('0' ≤ c ∧ c ≤ '9'))
    (h1 : c ≠ '-') (h2 : c ≠ '+') : c ∉ s := by
  intro hm
  rcases pyInt?_digit_or_sign s n h c hm with hh | hh | hh
  · exact hd hh
  · exact h1 hh
  · exact h2 hh

theorem pyInt?_comma_not_mem {s : List Char} {n : Int}
    (h : pyInt? s = some n) : ',' ∉ s :=
  pyInt?_not_mem s n ',' h (by decide) (by decide) (by decide)

theorem pyInt?_colon_not_mem {s : List Char} {n : Int}
    (h : pyInt? s = some n) : ':' ∉ s :=
  pyInt?_not_mem s n ':' h (by decide) (by decide) (by decide)

/-! ### Helper lemmas about spec resolution -/

theorem resolveItems_no_dash {s : List Char} (h : '-' ∉ s) :
    resolveItems s = .ok ((pySplit ',' s).map Sum.inr) := by
  rw [resolveItems, if_neg h]

theorem resolveItems_single {s : List Char} (hd : '-' ∉ s) (hc : ',' ∉ s) :
    resolveItems s = .ok [Sum.inr s] := by
  rw [resolveItems_no_dash hd, pySplit_of_not_mem _ _ hc]
  rfl

theorem resolveItems_range {a b : List Char} {n1 n2 : Int}
    (ha : '-' ∉ a) (hb : '-' ∉ b)
    (h1 : pyInt? a = some n1) (h2 : pyInt? b = some n2) :
    resolveItems (a ++ '-' :: b) = .ok ((pyRange n1 n2).map Sum.inl) := by
  have hmem : '-' ∈ a ++ '-' :: b :=
    List.mem_append_right _ (List.mem_cons_self _ _)
  rw [resolveItems, if_pos hmem, pySplit_append _ _ _ ha,
    pySplit_of_not_mem _ _ hb]
  simp [h1, h2]

theorem resolveItems_error {spec : List Char} {e : PyResult}
    (h : resolveItems spec = .error e) : e = .valueError := by
  rw [resolveItems] at h
  by_cases hd : '-' ∈ spec
  · rw [if_pos hd] at h
    split at h
    · split at h
      · cases h
      · cases h; rfl
    · cases h; rfl
  · rw [if_neg hd] at h
    cases h

theorem idsOf_map_inl (l : List Int) : idsOf (l.map Sum.inl) = some l := by
  induction l with
  | nil => rfl
  | cons x xs ih => simp [idsOf, itemId, ih]

theorem idsOf_map_inr (parts : List (List Char)) (ns : List Int)
    (h : List.Forall₂ (fun p m => pyInt? p = some m) parts ns) :
    idsOf (parts.map Sum.inr) = some ns := by
  induction h with
  | nil => rfl
  | cons h1 _ ih => simp [idsOf, itemId, h1, ih]

theorem forall₂_mem_left {α β : Type} {R : α → β → Prop} {P : α → Prop}
    {l₁ : List α} {l₂ : List β} (h : List.Forall₂ R l₁ l₂)
    (hR : ∀ x y, R x y → P x) : ∀ x ∈ l₁, P x := by
  induction h with
  | nil => intro x hx; cases hx
  | cons h1 _ ih =>
    intro x hx
    rcases List.mem_cons.mp hx with rfl | hm
    · exact hR _ _ h1
    · exact ih x hm

theorem pySplit_joinComma (parts : List (List Char))
    (h : ∀ p ∈ parts, ',' ∉ p) (hne : parts ≠ []) :
    pySplit ',' (joinComma parts) = parts := by
  induction parts with
  | nil => exact absurd rfl hne
  | cons p ps ih =>
    cases ps with
    | nil => exact pySplit_of_not_mem _ _ (h p (List.mem_cons_self _ _))
    | cons q qs =>
      show pySplit ',' (p ++ ',' :: joinComma (q :: qs)) = p :: q :: qs
      rw [pySplit_append _ _ _ (h p (List.mem_cons_self _ _)),
        ih (fun r hr => h r (List.mem_cons_of_mem _ hr)) (by simp)]

theorem dash_not_mem_joinComma (parts : List (List Char))
    (h : ∀ p ∈ parts, '-' ∉ p) : '-' ∉ joinComma parts := by
  induction parts with
  | nil => simp [joinComma]
  | cons p ps ih =>
    cases ps with
    | nil => exact h p (List.mem_cons_self _ _)
    | cons q qs =>
      show '-' ∉ p ++ ',' :: joinComma (q :: qs)
      simp only [List.mem_append, List.mem_cons, not_or]
      exact ⟨h p (List.mem_cons_self _ _), by decide,
        ih (fun r hr => h r (List.mem_cons_of_mem _ hr))⟩

theorem pyRange_eq_intRangeSpec (a b : Int) :
    pyRange a b = intRangeSpec a b := by
  rw [pyRange, intRangeSpec]
  generalize (b + 1 - a).toNat = m
  induction m generalizing a with
  | zero => rfl
  | succ k ih =>
    rw [List.range_succ_eq_map, upFrom, ← ih (a + 1)]
    simp only [List.map_cons, List.map_map]
    congr 1
    · simp
    · refine List.map_congr_left fun i _ => ?_
      simp only [Function.comp_apply, Int.ofNat_eq_coe]
      push_cast
      ring

theorem resolvedIds_single_of (ds : List Char) (n : Int)
    (hds : pyInt? ds = some n) (hdd : '-' ∉ ds) :
    resolvedIds ds = some [n] := by
  simp only [resolvedIds, resolveItems_single hdd (pyInt?_comma_not_mem hds)]
  simp [idsOf, itemId, hds]

theorem resolvedIds_joinComma (parts : List (List Char)) (ns : List Int)
    (h : List.Forall₂ (fun p m => pyInt? p = some m ∧ '-' ∉ p) parts ns)
    (hne : parts ≠ []) : resolvedIds (joinComma parts) = some ns := by
  have hcomma : ∀ p ∈ parts, ',' ∉ p :=
    forall₂_mem_left h fun _ _ hpm => pyInt?_comma_not_mem hpm.1
  have hdash : ∀ p ∈ parts, '-' ∉ p :=
    forall₂_mem_left h fun _ _ hpm => hpm.2
  simp only [resolvedIds, resolveItems_no_dash (dash_not_mem_joinComma parts hdash),
    pySplit_joinComma parts hcomma hne]
  exact idsOf_map_inr parts ns (h.imp fun _ _ hx => hx.1)

theorem resolvedIds_range_of (a b : List Char) (n1 n2 : Int)
    (ha : pyInt? a = some n1) (had : '-' ∉ a)
    (hb : pyInt? b = some n2) (hbd : '-' ∉ b) :
    resolvedIds (a ++ '-' :: b) = some (intRangeSpec n1 n2) := by
  simp only [resolvedIds, resolveItems_range had hbd ha hb, idsOf_map_inl,
    pyRange_eq_intRangeSpec]

/-- Claim C2: for every valid pin-id spec of each grammar form — single
integer `N`, comma list `N1,N2,...`, or inclusive range `N1-N2` — the
resolved pin-id sequence equals the mathematically expected ordered
sequence of integers (`intRangeSpec` for ranges, the listed integers for
the other forms). -/
theorem resolve_spec_all_forms (ds a b : List Char) (parts : List (List Char))
    (n n1 n2 : Int) (ns : List Int)
    (hds : pyInt? ds = some n) (hdd : '-' ∉ ds)
    (hparts : List.Forall₂ (fun p m => pyInt? p = some m ∧ '-' ∉ p) parts ns)
    (hpne : parts ≠ [])
    (ha : pyInt? a = some n1) (had : '-' ∉ a)
    (hb : pyInt? b = some n2) (hbd : '-' ∉ b) :
    resolvedIds ds = some [n]
    ∧ resolvedIds (joinComma parts) = some ns
    ∧ resolvedIds (a ++ '-' :: b) = some (intRangeSpec n1 n2) :=
  ⟨resolvedIds_single_of ds n hds hdd,
    resolvedIds_joinComma parts ns hparts hpne,
    resolvedIds_range_of a b n1 n2 ha had hb hbd⟩

/-- Witness for C2: `"17"` resolves to `[17]`, `"1,3,5"` to `[1,3,5]` and
`"4-6"` to `[4,5,6]`. -/
theorem resolve_spec_all_forms_witness :
    resolvedIds (("17").toList) = some [17]
    ∧ resolvedIds (joinComma [("1").toList, ("3").toList, ("5").toList]) = some [1, 3, 5]
    ∧ resolvedIds ((("4").toList) ++ '-' :: ("6").toList) = some (intRangeSpec 4 6)
    ∧ intRangeSpec 4 6 = [4, 5, 6]
    ∧ joinComma [("1").toList, ("3").toList, ("5").toList] = ("1,3,5").toList
    ∧ (("4").toList) ++ '-' :: ("6").toList = ("4-6").toList := by
  have h := resolve_spec_all_forms (("17").toList) (("4").toList) (("6").toList)
    [("1").toList, ("3").toList, ("5").toList] 17 4 6 [1, 3, 5]
    (by decide) (by decide)
    (.cons (by decide) (.cons (by decide) (.cons (by decide) .nil)))
    (by decide) (by decide) (by decide) (by decide) (by decide)
  exact ⟨h.1, h.2.1, h.2.2, by decide, by decide, by decide⟩

/-- Claim C3 (code bug): the script's own docstring advertises
`--interrupt 17-24:rising` and ranges like `2-20`, but every range-form
interrupt spec crashes before any callback is registered: with an edge
suffix, `int("24:rising")` raises `ValueError`; without one, the loop
calls `.split(":")` on an `int` and raises `AttributeError`.  The
comma/single forms do register one callback per pin. -/
theorem interrupt_range_spec_crashes :
    (interruptCmd (("17-24:rising").toList) envKI).result = .valueError
    ∧ (interruptCmd (("17-24:rising").toList) envKI).regs = []
    ∧ (interruptCmd (("17-24:rising").toList) envKI).trace = []
    ∧ (interruptCmd (("17-24:rising").toList) envKI).exitCode = 1
    ∧ (interruptCmd (("17-24").toList) envKI).result = .attrError
    ∧ (interruptCmd (("17-24").toList) envKI).regs = []
    ∧ (interruptCmd (("17-24").toList) envKI).exitCode = 1
    ∧ (interruptCmd (("17:rising,18:falling,19").toList) envKI).regs
        = [(17, ("rising").toList), (18, ("falling").toList), (19, ("both").toList)] := by
  decide

/-- Claim C4 (code bug): the startup gate compares the version strings
with Python string `<`, which is lexicographic, not the semver-like
ordering: version `"0.1.10"` is not below `"0.1.8"` as a semver triple,
yet the tool aborts on it. -/
theorem version_gate_is_lexicographic_not_semver :
    startupAborts (("0.1.10").toList) = true
    ∧ parseSemver (("0.1.10").toList) = some [0, 1, 10]
    ∧ parseSemver rpioVersionMin = some [0, 1, 8]
    ∧ semverLtSpec [0, 1, 10] [0, 1, 8] = false
    ∧ startupAborts (("0.1.8").toList) = false
    ∧ startupAborts (("0.1.7").toList) = true := by
  decide

/-- Claim C5 (code bug): on a bad `--setinput` suffix the script raises
`ValueError` and makes no configuration call, but the message formats the
pin id, not the offending suffix token: for `17:bogus` it reads
`Error: 17 is not ...` and does not contain `bogus` at all.  The three
good forms make exactly the documented `setup` call. -/
theorem setinput_bad_suffix_message_names_pin :
    (setinputCmd (("17:bogus").toList)).result
        = .raisedValueError (("Error: 17 is not `pullup` or `pulldown`").toList)
    ∧ (setinputCmd (("17:bogus").toList)).trace = []
    ∧ (setinputCmd (("17:bogus").toList)).exitCode = 1
    ∧ ¬ (("bogus").toList <:+: badSuffixMsg 17)
    ∧ badSuffixMsg 17 = ("Error: 17 is not `pullup` or `pulldown`").toList
    ∧ (setinputCmd (("17").toList)).trace = [.setup 17 .IN none]
    ∧ (setinputCmd (("17:pullup").toList)).trace = [.setup 17 .IN (some .up)]
    ∧ (setinputCmd (("17:pulldown").toList)).trace = [.setup 17 .IN (some .down)] := by
  decide

/-- Claim C1 (amended): for every write spec `N:V`, the tool queries the
pin's function code and calls `forceoutput` exactly once with pin `N` and
the exact value `V` if and only if the code equals OUTPUT (0); when the
code is a known non-OUTPUT code it reports exactly one error whose text
names the corrective command `--setoutput N`; when the code is outside
`GPIO_FUNCTIONS` it reports no error and dies with a `KeyError` instead. -/
theorem write_behavior (ds vs : List Char) (n v : Int) (env : Env)
    (hds : pyInt? ds = some n) (hvs : pyInt? vs = some v) :
    forceoutputsOf (writeCmd (ds ++ ':' :: vs) env).trace
        = (if env.gpio_function n = 0 then [(n, v)] else [])
    ∧ (env.gpio_function n = 0 →
        (writeCmd (ds ++ ':' :: vs) env).errors = []
        ∧ (writeCmd (ds ++ ':' :: vs) env).result = .ok)
    ∧ (env.gpio_function n ≠ 0 →
        (GPIO_FUNCTIONS (env.gpio_function n)).isSome = true →
        (writeCmd (ds ++ ':' :: vs) env).errors
            = [mismatchMsg ds ((GPIO_FUNCTIONS (env.gpio_function n)).getD []) n]
        ∧ (("--setoutput ").toList ++ intChars n)
            <:+: mismatchMsg ds ((GPIO_FUNCTIONS (env.gpio_function n)).getD []) n)
    ∧ (GPIO_FUNCTIONS (env.gpio_function n) = none →
        (writeCmd (ds ++ ':' :: vs) env).errors = []
        ∧ (writeCmd (ds ++ ':' :: vs) env).result = .keyError) := by
  have hsplit : pySplit ':' (ds ++ ':' :: vs) = [ds, vs] := by
    rw [pySplit_append _ _ _ (pyInt?_colon_not_mem hds),
      pySplit_of_not_mem _ _ (pyInt?_colon_not_mem hvs)]
  by_cases hf : env.gpio_function n = 0
  · have hw : writeCmd (ds ++ ':' :: vs) env
        = ⟨[.gpio_function n, .forceoutput n v], [], [], [], 0, .ok⟩ := by
      simp [writeCmd, hsplit, hds, hvs, hf]
    rw [hw, if_pos hf]
    refine ⟨by simp [forceoutputsOf], fun _ => ⟨rfl, rfl⟩, fun h0 _ => absurd hf h0, ?_⟩
    intro hnone
    rw [hf] at hnone
    simp [GPIO_FUNCTIONS] at hnone
  · cases hgf : GPIO_FUNCTIONS (env.gpio_function n) with
    | none =>
      have hw : writeCmd (ds ++ ':' :: vs) env
          = ⟨[.gpio_function n], [], [], [], 1, .keyError⟩ := by
        simp [writeCmd, hsplit, hds, hf, hgf]
      rw [hw, if_neg hf]
      refine ⟨by simp [forceoutputsOf], fun h0 => absurd h0 hf, ?_, fun _ => ⟨rfl, rfl⟩⟩
      intro _ hsome
      simp at hsome
    | some fname =>
      have hw : writeCmd (ds ++ ':' :: vs) env
          = ⟨[.gpio_function n], [], [mismatchMsg ds fname n], [], 0, .ok⟩ := by
        simp [writeCmd, hsplit, hds, hf, hgf]
      rw [hw, if_neg hf]
      refine ⟨by simp [forceoutputsOf], fun h0 => absurd h0 hf, ?_, ?_⟩
      · intro _ _
        refine ⟨rfl, ?_⟩
        refine ⟨("Cannot output to GPIO ").toList ++ ds
          ++ (", because it is setup as ").toList ++ fname ++ (". Use ").toList,
          (" first.").toList, ?_⟩
        simp [mismatchMsg, List.append_assoc]
      · intro hnone
        simp at hnone

/-- Witness for C1: with the collaborator reporting OUTPUT for pin 17,
`--write 17:1` makes exactly the call `forceoutput(17, 1)`. -/
theorem write_behavior_witness :
    forceoutputsOf (writeCmd ((("17").toList) ++ ':' :: ("1").toList) envOut).trace
      = (if envOut.gpio_function 17 = 0 then [(17, 1)] else []) :=
  (write_behavior (("17").toList) (("1").toList) 17 1 envOut (by decide) (by decide)).1

/-- Counterexample to C1 as stated: with the collaborator reporting
function code 2 (not OUTPUT) for pin 17, `--write 17:1` makes no
`forceoutput` call but also reports no error naming `--setoutput 17` —
the error list stays empty and the invocation dies with a `KeyError`. -/
theorem write_unknown_code_reports_no_error :
    envAlt.gpio_function 17 = 2
    ∧ (writeCmd (("17:1").toList) envAlt).errors = []
    ∧ forceoutputsOf (writeCmd (("17:1").toList) envAlt).trace = []
    ∧ (writeCmd (("17:1").toList) envAlt).result = .keyError := by
  decide

/-- Claim C10: the write branch performs no local validation of the value
component: for any decimal integer value `V`, when the queried function
code is OUTPUT the tool calls `forceoutput` with pin `N` and the integer
value of `V`, even when `V` is outside `{0, 1}`. -/
theorem write_forwards_any_value (ds vs : List Char) (n v : Int) (env : Env)
    (hds : pyInt? ds = some n) (hvs : pyInt? vs = some v)
    (hf : env.gpio_function n = 0) :
    (writeCmd (ds ++ ':' :: vs) env).trace = [.gpio_function n, .forceoutput n v]
    ∧ (writeCmd (ds ++ ':' :: vs) env).errors = []
    ∧ (writeCmd (ds ++ ':' :: vs) env).result = .ok := by
  have hsplit : pySplit ':' (ds ++ ':' :: vs) = [ds, vs] := by
    rw [pySplit_append _ _ _ (pyInt?_colon_not_mem hds),
      pySplit_of_not_mem _ _ (pyInt?_colon_not_mem hvs)]
  have hw : writeCmd (ds ++ ':' :: vs) env
      = ⟨[.gpio_function n, .forceoutput n v], [], [], [], 0, .ok⟩ := by
    simp [writeCmd, hsplit, hds, hvs, hf]
  rw [hw]
  exact ⟨rfl, rfl, rfl⟩

/-- Witness for C10: `--write 17:5` with pin 17 reported as OUTPUT calls
`forceoutput(17, 5)` although 5 is outside `{0, 1}`. -/
theorem write_forwards_any_value_witness :
    (writeCmd ((("17").toList) ++ ':' :: ("5").toList) envOut).trace
      = [.gpio_function 17, .forceoutput 17 5] :=
  (write_forwards_any_value (("17").toList) (("5").toList) 17 5 envOut
    (by decide) (by decide) (by decide)).1

theorem showLoop_queries (env : Env) (items : List (Int ⊕ List Char)) :
    (((showLoop env items).1.all isQueryCall)) = true := by
  induction items with
  | nil => rfl
  | cons item rest ih =>
    cases hid : itemId item with
    | none => simp [showLoop, hid]
    | some pin =>
      cases hgf : GPIO_FUNCTIONS (env.gpio_function pin) with
      | none => simp [showLoop, hid, hgf, isQueryCall]
      | some fname => simp [showLoop, hid, hgf, isQueryCall, ih]

/-- Claim C8: the show branch only ever calls the query operations
`gpio_function` and `forceinput` on the collaborator — never `setup`,
`forceoutput` or any other mode-changing operation — for every spec and
every collaborator behaviour, including the traces of crashing runs. -/
theorem show_never_mutates (spec : List Char) (env : Env) :
    (((showCmd spec env).trace.all isQueryCall)) = true := by
  cases hr : resolveItems spec with
  | error e => simp [showCmd, hr]
  | ok items => simpa [showCmd, hr] using showLoop_queries env items

theorem gpio_functions_none_of_not_mem {f : Int}
    (h : f ∉ ([0, 1, 4, 7] : List Int)) : GPIO_FUNCTIONS f = none := by
  simp only [List.mem_cons, List.not_mem_nil, or_false, not_or] at h
  obtain ⟨h0, h1, h4, h7⟩ := h
  rw [GPIO_FUNCTIONS, if_neg h0, if_neg h1, if_neg h4, if_neg h7]

/-- Claim C9: when the collaborator reports a function code outside
`{0, 1, 4, 7}`, both the show branch and the write branch's
mismatch-error path die with an unhandled `KeyError` while rendering the
function name: show prints no line, write logs no error, and neither
prints an other/unknown rendering. -/
theorem unknown_code_raises_keyerror (ds : List Char) (n : Int) (env : Env)
    (hds : pyInt? ds = some n) (hdd : '-' ∉ ds)
    (hf : env.gpio_function n ∉ ([0, 1, 4, 7] : List Int)) :
    (showCmd ds env).result = .keyError
    ∧ (showCmd ds env).lines = []
    ∧ (showCmd ds env).trace = [.gpio_function n]
    ∧ (showCmd ds env).exitCode = 1
    ∧ (writeCmd (ds ++ ':' :: ('1' :: [])) env).result = .keyError
    ∧ (writeCmd (ds ++ ':' :: ('1' :: [])) env).errors = []
    ∧ forceoutputsOf (writeCmd (ds ++ ':' :: ('1' :: [])) env).trace = [] := by
  have hnone := gpio_functions_none_of_not_mem hf
  have hf0 : env.gpio_function n ≠ 0 := fun h0 => hf (by rw [h0]; decide)
  have hres := resolveItems_single hdd (pyInt?_comma_not_mem hds)
  have hshow : showCmd ds env = ⟨[.gpio_function n], [], [], [], 1, .keyError⟩ := by
    simp [showCmd, hres, showLoop, itemId, hds, hnone]
  have hsplit : pySplit ':' (ds ++ ':' :: ('1' :: [])) = [ds, ['1']] := by
    rw [pySplit_append _ _ _ (pyInt?_colon_not_mem hds)]
    rfl
  have hwrite : writeCmd (ds ++ ':' :: ('1' :: [])) env
      = ⟨[.gpio_function n], [], [], [], 1, .keyError⟩ := by
    simp [writeCmd, hsplit, hds, hf0, hnone]
  rw [hshow, hwrite]
  exact ⟨rfl, rfl, rfl, rfl, rfl, rfl, rfl⟩

/-- Witness for C9: with the collaborator reporting code 2 for pin 17,
`--show 17` ends in a `KeyError`. -/
theorem unknown_code_raises_keyerror_witness :
    (showCmd (("17").toList) envAlt).result = .keyError :=
  (unknown_code_raises_keyerror (("17").toList) 17 envAlt
    (by decide) (by decide) (by decide)).1

/-- Claim C6 (amended): the interrupt branch performs no edge validation:
a single-element spec `N:EDGE` leads to exactly one registration carrying
the literal suffix as its edge — whether or not the suffix is one of
`rising`, `falling`, `both` — and the invocation raises no error and
exits 0; any edge checking is delegated to the collaborator. -/
theorem interrupt_edge_forwarded (ds es : List Char) (n : Int) (env : Env)
    (hds : pyInt? ds = some n) (hdd : '-' ∉ ds)
    (hed : '-' ∉ es) (hec : ',' ∉ es) (heco : ':' ∉ es) :
    (interruptCmd (ds ++ ':' :: es) env).regs = [(n, es)]
    ∧ (interruptCmd (ds ++ ':' :: es) env).result = .ok
    ∧ (interruptCmd (ds ++ ':' :: es) env).exitCode = 0
    ∧ (interruptCmd (ds ++ ':' :: es) env).errors = [] := by
  have hdash : '-' ∉ ds ++ ':' :: es := by
    simp only [List.mem_append, List.mem_cons, not_or]
    exact ⟨hdd, by decide, hed⟩
  have hcomma : ',' ∉ ds ++ ':' :: es := by
    simp only [List.mem_append, List.mem_cons, not_or]
    exact ⟨pyInt?_comma_not_mem hds, by decide, hec⟩
  have hres := resolveItems_single hdash hcomma
  have hsplit : pySplit ':' (ds ++ ':' :: es) = [ds, es] := by
    rw [pySplit_append _ _ _ (pyInt?_colon_not_mem hds),
      pySplit_of_not_mem _ _ heco]
  have hloop : interruptLoop [Sum.inr (ds ++ ':' :: es)]
      = ([.add_interrupt_callback n es], [(n, es)], .ok) := by
    simp [interruptLoop, hsplit, hds]
  refine ⟨?_, ?_, ?_, ?_⟩ <;> cases hw : env.waitOutcome <;>
    simp [interruptCmd, hres, hloop, hw]

/-- Witness for C6: spec `18:weird` registers pin 18 with the literal
edge `weird`. -/
theorem interrupt_edge_forwarded_witness :
    (interruptCmd ((("18").toList) ++ ':' :: ("weird").toList) envKI).regs
      = [(18, ("weird").toList)] :=
  (interrupt_edge_forwarded (("18").toList) (("weird").toList) 18 envKI
    (by decide) (by decide) (by decide) (by decide) (by decide)).1

/-- Counterexample to C6 as stated: `--interrupt 17:bogus` does not fail
fast — it registers the callback with edge `bogus`, raises no error, and
exits 0. -/
theorem interrupt_bad_edge_not_failfast :
    (interruptCmd (("17:bogus").toList) envOut).regs = [(17, ("bogus").toList)]
    ∧ (interruptCmd (("17:bogus").toList) envOut).result = .ok
    ∧ (interruptCmd (("17:bogus").toList) envOut).exitCode = 0
    ∧ (interruptCmd (("17:bogus").toList) envOut).errors = [] := by
  decide

theorem interruptLoop_calls_reg (items : List (Int ⊕ List Char)) :
    (((interruptLoop items).1.all isRegCall)) = true := by
  induction items with
  | nil => rfl
  | cons item rest ih =>
    cases item with
    | inl m => rfl
    | inr s =>
      cases hsp : pySplit ':' s with
      | nil => simp [interruptLoop, hsp]
      | cons p0 ps =>
        cases hp : pyInt? p0 with
        | none => simp [interruptLoop, hsp, hp]
        | some pin => simp [interruptLoop, hsp, hp, isRegCall, ih]

theorem count_cleanup_eq_zero {l : List Call}
    (h : ((l.all isRegCall)) = true) : l.count .cleanup = 0 := by
  rw [List.count_eq_zero]
  intro hm
  have hreg := List.all_eq_true.mp h _ hm
  simp [isRegCall] at hreg

/-- Claim C7: whenever the blocking `wait_for_interrupts` call is
interrupted by Ctrl-C, the interrupt branch calls the collaborator's
`cleanup` exactly once, as its very last call right after the wait, logs
no error, and the process exits 0 — the cancellation is not an error. -/
theorem interrupt_ki_cleanup_exit0 (spec : List Char) (env : Env)
    (hw : env.waitOutcome = .keyboardInterrupt)
    (hok : (interruptCmd spec env).result = .ok) :
    (interruptCmd spec env).trace.getLast? = some .cleanup
    ∧ (interruptCmd spec env).trace.dropLast.getLast? = some .wait_for_interrupts
    ∧ (interruptCmd spec env).trace.count .cleanup = 1
    ∧ (interruptCmd spec env).exitCode = 0
    ∧ (interruptCmd spec env).errors = [] := by
  cases hr : resolveItems spec with
  | error e =>
    have he := resolveItems_error hr
    subst he
    simp [interruptCmd, hr] at hok
  | ok items =>
    cases hl : (interruptLoop items).2.2 with
    | ok =>
      have hcmd : interruptCmd spec env
          = ⟨(interruptLoop items).1 ++ [Call.wait_for_interrupts, Call.cleanup],
            [], [], (interruptLoop items).2.1, 0, .ok⟩ := by
        simp [interruptCmd, hr, hl, hw]
      rw [hcmd]
      have hsplit2 : (interruptLoop items).1 ++ [Call.wait_for_interrupts, Call.cleanup]
          = ((interruptLoop items).1 ++ [Call.wait_for_interrupts]) ++ [Call.cleanup] := by
        simp
      refine ⟨?_, ?_, ?_, rfl, rfl⟩
      · show ((interruptLoop items).1
            ++ [Call.wait_for_interrupts, Call.cleanup]).getLast?
            = some Call.cleanup
        rw [hsplit2, List.getLast?_concat]
      · show ((interruptLoop items).1
            ++ [Call.wait_for_interrupts, Call.cleanup]).dropLast.getLast?
            = some Call.wait_for_interrupts
        rw [hsplit2, List.dropLast_concat, List.getLast?_concat]
      · show ((interruptLoop items).1
            ++ [Call.wait_for_interrupts, Call.cleanup]).count Call.cleanup = 1
        rw [List.count_append, count_cleanup_eq_zero (interruptLoop_calls_reg items)]
        rfl
    | valueError => simp [interruptCmd, hr, hl] at hok
    | raisedValueError m => simp [interruptCmd, hr, hl] at hok
    | keyError => simp [interruptCmd, hr, hl] at hok
    | attrError => simp [interruptCmd, hr, hl] at hok

/-- Witness for C7: `--interrupt 17` under a Ctrl-C-interrupted wait ends
with the `cleanup` call. -/
theorem interrupt_ki_cleanup_exit0_witness :
    (interruptCmd (("17").toList) envKI).trace.getLast? = some .cleanup :=
  (interrupt_ki_cleanup_exit0 (("17").toList) envKI rfl (by decide)).1

/-- Witness for C8: `--show 4-6` with every pin reported as INPUT only
issues query calls. -/
theorem show_never_mutates_witness :
    (((showCmd (("4-6").toList) envIn).trace.all isQueryCall)) = true :=
  show_never_mutates (("4-6").toList) envIn
